import Mathlib

/-!
Shallow embedding of the `prethread` library (src/prethd.c, src/prethd.h):
a fixed-capacity pool of pre-allocated pthreads, mutexes and condition
variables addressed by index.

Modelling conventions:
* A `prethd_t *` pool reference is `Option Pool`; `none` models a NULL
  pointer (invalid pool reference).
* The pointer fields `muts` / `conds` of `struct pre_threads_t` are
  modelled by a `Bool` recording whether the pointer is non-NULL; the
  claims never need the internal state of a mutex or condition variable,
  only whether the array was allocated.
* Machine integers (`size_t`, loop counters, error codes) are `Nat`;
  pthread error codes are non-negative, with `0` meaning success.
* The outcome of each fallible external call (malloc, pthread_create,
  pthread_join, pthread_mutex_lock, ...) is an explicit oracle argument:
  an `AllocEnv` for the allocations inside `prethd_new`, a
  `Nat → Bool` / `Nat → Nat` per-index result for the per-slot loops, and
  a plain `Nat` return code for operations that perform one call.
* Side effects the claims talk about (which slots a join loop touches,
  which destroy/free steps a teardown performs, which pthread primitive
  calls an operation issues) are reified as explicit traces.
-/

set_option autoImplicit false

namespace Prethread

/-- One slot of the `threads` array: `uninit` models a slot whose
`pthread_t` was never written by a successful `pthread_create` (the array
comes from `malloc` uninitialized); `started` models a slot holding the
handle of a successfully started thread. -/
inductive ThreadSlot where
  | uninit
  | started
  deriving DecidableEq

/-- Outcome of the four allocations performed inside `prethd_new`:
`malloc(sizeof *ret)` for the pool struct, the `malloc` inside
`init_muts`, the `malloc` inside `init_conds`, and
`malloc(th * sizeof(pthread_t))` for the thread array.
`true` means the allocation succeeds. -/
structure AllocEnv where
  poolOk : Bool
  mutsOk : Bool
  condsOk : Bool
  threadsOk : Bool
  deriving DecidableEq

/-- The environment in which every allocation succeeds. -/
def AllocEnv.allOk : AllocEnv :=
  { poolOk := true, mutsOk := true, condsOk := true, threadsOk := true }

/-- `struct pre_threads_t` from src/prethd.c. `muts` / `conds` are `true`
when the corresponding pointer is non-NULL; `threads` is the thread-handle
array; `len`, `mlen`, `clen` are the stored counts. -/
structure Pool where
  muts : Bool
  conds : Bool
  threads : List ThreadSlot
  len : Nat
  mlen : Nat
  clen : Nat
  deriving DecidableEq

/-- `init_muts n`: returns NULL (`false`) when `n == 0` or when the
`malloc` fails, otherwise a non-NULL (`true`) array of `n` initialized
mutexes. -/
def init_muts (n : Nat) (allocOk : Bool) : Bool :=
  if n = 0 then false else allocOk

/-- `init_conds n`: returns NULL (`false`) when `n == 0` or when the
`malloc` fails, otherwise a non-NULL (`true`) array of `n` initialized
condition variables. -/
def init_conds (n : Nat) (allocOk : Bool) : Bool :=
  if n = 0 then false else allocOk

/-- `prethd_new th mut cond`: returns NULL when `th == 0` or the pool
`malloc` fails; otherwise stores the three counts, calls `init_muts` and
`init_conds`, allocates the thread array, and rolls everything back
(returning NULL) only when the thread-array `malloc` fails. Note that the
results of `init_muts` / `init_conds` are never checked: this mirrors the
source, where a NULL `muts` / `conds` pointer is stored in the returned
pool. -/
def prethd_new (th mtx cond : Nat) (env : AllocEnv) : Option Pool :=
  if th = 0 then none
  else if env.poolOk then
    if env.threadsOk then
      some { muts := init_muts mtx env.mutsOk,
             conds := init_conds cond env.condsOk,
             threads := List.replicate th ThreadSlot.uninit,
             len := th, mlen := mtx, clen := cond }
    else none
  else none

/-- The `for` loop of `prethd_all`, walking the thread array from index
`i`: if `pthread_create` for the current index succeeds (`createOk i`)
the slot is started and the loop continues, otherwise the loop breaks,
leaving this slot and all later slots untouched. Returns the number of
threads started together with the updated array. The loop bound
`th->len` of the source equals the array length for every pool built by
`prethd_new` (and `startSlots` preserves it). -/
def startSlots (createOk : Nat → Bool) : Nat → List ThreadSlot → Nat × List ThreadSlot
  | _, [] => (0, [])
  | i, s :: rest =>
      if createOk i then
        ((startSlots createOk (i + 1) rest).1 + 1,
         ThreadSlot.started :: (startSlots createOk (i + 1) rest).2)
      else (0, s :: rest)

/-- `prethd_all th func arg`: returns 0 on a NULL pool, otherwise starts
threads in index order until the first `pthread_create` failure and
returns the count started. The second component is the pool after the
call (the source mutates `th->threads` in place). -/
def prethd_all (p : Option Pool) (createOk : Nat → Bool) : Nat × Option Pool :=
  match p with
  | none => (0, none)
  | some pool =>
      ((startSlots createOk 0 pool.threads).1,
       some { pool with threads := (startSlots createOk 0 pool.threads).2 })

/-- `prethd_size th`: `(th == NULL) ? 0 : th->len`. -/
def prethd_size (p : Option Pool) : Nat :=
  match p with
  | none => 0
  | some pool => pool.len

/-- `prethd_mutex_size th`: `(th == NULL) ? 0 : th->mlen`. -/
def prethd_mutex_size (p : Option Pool) : Nat :=
  match p with
  | none => 0
  | some pool => pool.mlen

/-- `prethd_cond_size th`: `(th == NULL) ? 0 : th->clen`. -/
def prethd_cond_size (p : Option Pool) : Nat :=
  match p with
  | none => 0
  | some pool => pool.clen

/-- The `for` loop of `prethd_join`, iterating over `fuel` slots starting
at index `i`: records every index on which `pthread_join` is attempted
and accumulates `chk += pthread_join(...)`. -/
def joinLoop (joinRes : Nat → Nat) (i : Nat) : Nat → List Nat × Nat
  | 0 => ([], 0)
  | n + 1 =>
      (i :: (joinLoop joinRes (i + 1) n).1,
       joinRes i + (joinLoop joinRes (i + 1) n).2)

/-- `prethd_join th`: false on a NULL pool; otherwise runs the join loop
over all `th->len` slots and returns `chk == 0`. `joinRes i` is the
return code of `pthread_join` on slot `i`. -/
def prethd_join (p : Option Pool) (joinRes : Nat → Nat) : Bool :=
  match p with
  | none => false
  | some pool => (joinLoop joinRes 0 pool.len).2 == 0

/-- The indices on which `prethd_join` attempts a `pthread_join` call
(empty for a NULL pool, which returns before the loop). -/
def joinAttempts (p : Option Pool) (joinRes : Nat → Nat) : List Nat :=
  match p with
  | none => []
  | some pool => (joinLoop joinRes 0 pool.len).1

/-- One pthread primitive call issued by a lock/wait/signal operation. -/
inductive PrimCall where
  | lock (i : Nat)
  | unlock (i : Nat)
  | wait (c m : Nat)
  | signal (i : Nat)
  | broadcast (i : Nat)
  deriving DecidableEq

/-- `prethd_lock th i`: `(th == NULL || i >= th->mlen) ? false :
pthread_mutex_lock(th->muts + i) == 0`, where `r` is the return code of
that one `pthread_mutex_lock` call. The second component is the list of
primitive calls issued. -/
def prethd_lock (p : Option Pool) (i : Nat) (r : Nat) : Bool × List PrimCall :=
  match p with
  | none => (false, [])
  | some pool =>
      if pool.mlen ≤ i then (false, [])
      else (r == 0, [PrimCall.lock i])

/-- `prethd_unlock th i`: same shape as `prethd_lock`, calling
`pthread_mutex_unlock`. -/
def prethd_unlock (p : Option Pool) (i : Nat) (r : Nat) : Bool × List PrimCall :=
  match p with
  | none => (false, [])
  | some pool =>
      if pool.mlen ≤ i then (false, [])
      else (r == 0, [PrimCall.unlock i])

/-- `prethd_wait th c m`: `(th == NULL || c >= th->clen || m >= th->mlen)
? false : pthread_cond_wait(th->conds + c, th->muts + m) == 0`. -/
def prethd_wait (p : Option Pool) (c m : Nat) (r : Nat) : Bool × List PrimCall :=
  match p with
  | none => (false, [])
  | some pool =>
      if pool.clen ≤ c ∨ pool.mlen ≤ m then (false, [])
      else (r == 0, [PrimCall.wait c m])

/-- `prethd_signal th i`: `(th == NULL || i >= th->clen) ? false :
pthread_cond_signal(th->conds + i) == 0`. -/
def prethd_signal (p : Option Pool) (i : Nat) (r : Nat) : Bool × List PrimCall :=
  match p with
  | none => (false, [])
  | some pool =>
      if pool.clen ≤ i then (false, [])
      else (r == 0, [PrimCall.signal i])

/-- `prethd_broad th i`: `(th == NULL || i >= th->clen) ? false :
pthread_cond_broadcast(th->conds + i) == 0`. -/
def prethd_broad (p : Option Pool) (i : Nat) (r : Nat) : Bool × List PrimCall :=
  match p with
  | none => (false, [])
  | some pool =>
      if pool.clen ≤ i then (false, [])
      else (r == 0, [PrimCall.broadcast i])

/-- One release step performed during teardown. -/
inductive FreeAction where
  | destroyMutex (i : Nat)
  | freeMutArray
  | destroyCond (i : Nat)
  | freeCondArray
  | freeThreads
  | freePool
  deriving DecidableEq

/-- `des_muts muts n`: when the pointer is non-NULL and `n > 0`, destroys
each of the `n` mutexes then frees the array; otherwise does nothing. -/
def des_muts_trace (muts : Bool) (n : Nat) : List FreeAction :=
  if muts ∧ 0 < n then
    (List.range n).map FreeAction.destroyMutex ++ [FreeAction.freeMutArray]
  else []

/-- `des_conds conds n`: when the pointer is non-NULL and `n > 0`,
destroys each of the `n` condition variables then frees the array;
otherwise does nothing. -/
def des_conds_trace (conds : Bool) (n : Nat) : List FreeAction :=
  if conds ∧ 0 < n then
    (List.range n).map FreeAction.destroyCond ++ [FreeAction.freeCondArray]
  else []

/-- `prethd_free th`: no-op on a NULL pool; otherwise destroys the mutex
array, destroys the condvar array, frees the thread array and frees the
pool struct. The result is the trace of release steps performed. -/
def prethd_free_trace (p : Option Pool) : List FreeAction :=
  match p with
  | none => []
  | some pool =>
      des_muts_trace pool.muts pool.mlen ++ des_conds_trace pool.conds pool.clen
        ++ [FreeAction.freeThreads, FreeAction.freePool]

/-- `prethd_join_free th`: calls `prethd_join th` and performs the same
release steps as `prethd_free` only when the join reported success (the
source never reaches the body with a NULL pool, since `prethd_join`
returns false there). -/
def prethd_join_free_trace (p : Option Pool) (joinRes : Nat → Nat) : List FreeAction :=
  if prethd_join p joinRes then
    match p with
    | none => []
    | some pool =>
        des_muts_trace pool.muts pool.mlen ++ des_conds_trace pool.conds pool.clen
          ++ [FreeAction.freeThreads, FreeAction.freePool]
  else []

/-! ### Helper lemmas about the loops -/

/-- The start loop never starts more threads than there are slots. -/
theorem startSlots_count_le (createOk : Nat → Bool) (i : Nat) (l : List ThreadSlot) :
    (startSlots createOk i l).1 ≤ l.length := by
  induction l generalizing i with
  | nil => simp [startSlots]
  | cons s rest ih =>
    by_cases h : createOk i
    · simpa [startSlots, h] using ih (i + 1)
    · simp [startSlots, h]

/-- Every slot the start loop counts as started had a successful
`pthread_create`. -/
theorem startSlots_ok (createOk : Nat → Bool) (i : Nat) (l : List ThreadSlot) :
    ∀ j, j < (startSlots createOk i l).1 → createOk (i + j) = true := by
  induction l generalizing i with
  | nil => intro j hj; simp [startSlots] at hj
  | cons s rest ih =>
    intro j hj
    by_cases h : createOk i
    · simp only [startSlots, h, if_true] at hj
      cases j with
      | zero => simpa using h
      | succ j =>
        have hj2 : j < (startSlots createOk (i + 1) rest).1 := by omega
        have := ih (i + 1) j hj2
        have harith : i + 1 + j = i + (j + 1) := by omega
        rwa [harith] at this
    · simp [startSlots, h] at hj

/-- When the start loop stops early, the `pthread_create` for the next
index failed. -/
theorem startSlots_stop (createOk : Nat → Bool) (i : Nat) (l : List ThreadSlot) :
    (startSlots createOk i l).1 < l.length →
      createOk (i + (startSlots createOk i l).1) = false := by
  induction l generalizing i with
  | nil => intro h; simp [startSlots] at h
  | cons s rest ih =>
    intro h
    by_cases hc : createOk i
    · simp only [startSlots, hc, if_true] at h ⊢
      have h2 : (startSlots createOk (i + 1) rest).1 < rest.length := by
        simpa using h
      have := ih (i + 1) h2
      have harith : i + 1 + (startSlots createOk (i + 1) rest).1 =
          i + ((startSlots createOk (i + 1) rest).1 + 1) := by omega
      rwa [harith] at this
    · simp [startSlots, hc]

/-- When every `pthread_create` succeeds, the start loop starts every
slot. -/
theorem startSlots_all (createOk : Nat → Bool) (i : Nat) (l : List ThreadSlot) :
    (∀ j, j < l.length → createOk (i + j) = true) →
      (startSlots createOk i l).1 = l.length := by
  induction l generalizing i with
  | nil => intro _; simp [startSlots]
  | cons s rest ih =>
    intro h
    have h0 : createOk i = true := by simpa using h 0 (by simp)
    have hrest : ∀ j, j < rest.length → createOk (i + 1 + j) = true := by
      intro j hj
      have := h (j + 1) (by simp; omega)
      have harith : i + (j + 1) = i + 1 + j := by omega
      rwa [harith] at this
    simp [startSlots, h0, ih (i + 1) hrest]

/-- After the start loop, the array is the started prefix followed by the
untouched suffix. -/
theorem startSlots_snd (createOk : Nat → Bool) (i : Nat) (l : List ThreadSlot) :
    (startSlots createOk i l).2 =
      List.replicate (startSlots createOk i l).1 ThreadSlot.started
        ++ l.drop (startSlots createOk i l).1 := by
  induction l generalizing i with
  | nil => simp [startSlots]
  | cons s rest ih =>
    by_cases h : createOk i
    · simp [startSlots, h, List.replicate_succ, ih (i + 1)]
    · simp [startSlots, h]

/-- The join loop visits exactly the `n` indices starting at `i`, in
order, whatever the join results are. -/
theorem joinLoop_fst (joinRes : Nat → Nat) (i n : Nat) :
    (joinLoop joinRes i n).1 = (List.range n).map (i + ·) := by
  induction n generalizing i with
  | zero => simp [joinLoop]
  | succ n ih =>
    have hfun : ((i + ·) ∘ Nat.succ) = ((i + 1) + ·) := by
      funext j; simp; omega
    simp [joinLoop, ih (i + 1), List.range_succ_eq_map, List.map_map, hfun]

/-- The accumulated error sum of the join loop is zero exactly when every
individual join succeeded. -/
theorem joinLoop_snd_eq_zero (joinRes : Nat → Nat) (i n : Nat) :
    (joinLoop joinRes i n).2 = 0 ↔ ∀ j, j < n → joinRes (i + j) = 0 := by
  induction n generalizing i with
  | zero => simp [joinLoop]
  | succ n ih =>
    simp only [joinLoop, Nat.add_eq_zero, ih (i + 1)]
    constructor
    · rintro ⟨h0, hrest⟩ j hj
      cases j with
      | zero => simpa using h0
      | succ j =>
        have := hrest j (by omega)
        have harith : i + 1 + j = i + (j + 1) := by omega
        rwa [harith] at this
    · intro h
      refine ⟨by simpa using h 0 (by omega), fun j hj => ?_⟩
      have := h (j + 1) (by omega)
      have harith : i + (j + 1) = i + 1 + j := by omega
      rwa [harith] at this

/-- `prethd_join` on a non-NULL pool always attempts a join on every one
of the `len` slots, in index order, regardless of join outcomes. -/
theorem joinAttempts_range (pool : Pool) (joinRes : Nat → Nat) :
    joinAttempts (some pool) joinRes = List.range pool.len := by
  simp [joinAttempts, joinLoop_fst]

/-! ### Claim theorems -/

/-- Allocation environment in which the `malloc` inside `init_muts` fails
while the pool, condvar and thread-array allocations succeed. -/
def mutsFailEnv : AllocEnv :=
  { poolOk := true, mutsOk := false, condsOk := true, threadsOk := true }

/-- C1: refuted on the code. When the mutex-array allocation inside
`init_muts` fails but the pool and thread-array allocations succeed,
`prethd_new 1 1 0` does not return the construction error: it returns a
non-NULL pool whose stored mutex count is 1 while its mutex array is NULL
(`muts = false`) — a partial pool, because `prethd_new` never checks the
result of `init_muts` / `init_conds`. -/
theorem c1_partial_pool_returned :
    prethd_new 1 1 0 mutsFailEnv =
      some { muts := false, conds := false,
             threads := [ThreadSlot.uninit], len := 1, mlen := 1, clen := 0 } ∧
    prethd_mutex_size (prethd_new 1 1 0 mutsFailEnv) = 1 := by
  exact ⟨rfl, rfl⟩

/-- C2: bounds checking on every constructed pool with `mlen = M` and
`clen = C`. Lock and Unlock return false for any mutex index `≥ M` and
return true for any index `< M` when the underlying pthread call succeeds
(return code 0); Wait returns false whenever its condvar index is `≥ C`
or its mutex index is `≥ M`, and succeeds in bounds when the underlying
call does; Signal and Broadcast return false for any condvar index `≥ C`
and return true below `C` when the underlying call succeeds. -/
theorem c2_bounds_checked (pool : Pool) (i c m r : Nat) :
    (pool.mlen ≤ i →
      (prethd_lock (some pool) i r).1 = false ∧
      (prethd_unlock (some pool) i r).1 = false) ∧
    (i < pool.mlen → r = 0 →
      (prethd_lock (some pool) i r).1 = true ∧
      (prethd_unlock (some pool) i r).1 = true) ∧
    (pool.clen ≤ c ∨ pool.mlen ≤ m → (prethd_wait (some pool) c m r).1 = false) ∧
    (c < pool.clen → m < pool.mlen → r = 0 →
      (prethd_wait (some pool) c m r).1 = true) ∧
    (pool.clen ≤ i →
      (prethd_signal (some pool) i r).1 = false ∧
      (prethd_broad (some pool) i r).1 = false) ∧
    (i < pool.clen → r = 0 →
      (prethd_signal (some pool) i r).1 = true ∧
      (prethd_broad (some pool) i r).1 = true) := by
  refine ⟨fun h => ?_, fun h hr => ?_, fun h => ?_, fun hc hm hr => ?_,
    fun h => ?_, fun h hr => ?_⟩
  · simp [prethd_lock, prethd_unlock, h]
  · simp [prethd_lock, prethd_unlock, Nat.not_le.mpr h, hr]
  · simp only [prethd_wait]
    rw [if_pos h]
  · simp only [prethd_wait]
    rw [if_neg (by omega), hr]
    simp
  · simp [prethd_signal, prethd_broad, h]
  · simp [prethd_signal, prethd_broad, Nat.not_le.mpr h, hr]

/-- A constructed pool with 2 mutexes and 1 condition variable, used to
witness the bounds checks at concrete indices. -/
def boundsPool : Pool :=
  { muts := true, conds := true, threads := [ThreadSlot.uninit],
    len := 1, mlen := 2, clen := 1 }

/-- Witness for C2 on a pool with 2 mutexes and 1 condvar: lock fails at
index 5 and succeeds at index 1, wait fails at condvar index 3 and
succeeds at (0, 0), signal fails at index 4, broadcast succeeds at 0. -/
theorem c2_bounds_checked_witness :
    (prethd_lock (some boundsPool) 5 0).1 = false ∧
    (prethd_lock (some boundsPool) 1 0).1 = true ∧
    (prethd_wait (some boundsPool) 3 0 0).1 = false ∧
    (prethd_wait (some boundsPool) 0 0 0).1 = true ∧
    (prethd_signal (some boundsPool) 4 0).1 = false ∧
    (prethd_broad (some boundsPool) 0 0).1 = true :=
  ⟨((c2_bounds_checked boundsPool 5 0 0 0).1 (by decide)).1,
   ((c2_bounds_checked boundsPool 1 0 0 0).2.1 (by decide) rfl).1,
   (c2_bounds_checked boundsPool 0 3 0 0).2.2.1 (Or.inl (by decide)),
   (c2_bounds_checked boundsPool 0 0 0 0).2.2.2.1 (by decide) (by decide) rfl,
   ((c2_bounds_checked boundsPool 4 0 0 0).2.2.2.2.1 (by decide)).1,
   ((c2_bounds_checked boundsPool 0 0 0 0).2.2.2.2.2 (by decide) rfl).2⟩

/-- C3: `prethd_new 0 mtx cond` returns NULL for every requested counts
and every allocation environment; for every `th ≥ 1` with all underlying
allocations succeeding, `prethd_new` returns a valid (non-NULL) pool on
which the three size accessors report exactly the requested counts. -/
theorem c3_construct_sizes (th mtx cond : Nat) (env : AllocEnv) (h : 1 ≤ th) :
    prethd_new 0 mtx cond env = none ∧
    (prethd_new th mtx cond AllocEnv.allOk).isSome = true ∧
    prethd_size (prethd_new th mtx cond AllocEnv.allOk) = th ∧
    prethd_mutex_size (prethd_new th mtx cond AllocEnv.allOk) = mtx ∧
    prethd_cond_size (prethd_new th mtx cond AllocEnv.allOk) = cond := by
  have hth : ¬ th = 0 := by omega
  refine ⟨by simp [prethd_new], ?_, ?_, ?_, ?_⟩ <;>
    simp [prethd_new, hth, AllocEnv.allOk, prethd_size, prethd_mutex_size,
      prethd_cond_size]

/-- Witness for C3 at `th = 3, mtx = 2, cond = 1`. -/
theorem c3_construct_sizes_witness :
    prethd_new 0 2 1 AllocEnv.allOk = none ∧
    prethd_size (prethd_new 3 2 1 AllocEnv.allOk) = 3 ∧
    prethd_mutex_size (prethd_new 3 2 1 AllocEnv.allOk) = 2 ∧
    prethd_cond_size (prethd_new 3 2 1 AllocEnv.allOk) = 1 :=
  ⟨(c3_construct_sizes 3 2 1 AllocEnv.allOk (by decide)).1,
   (c3_construct_sizes 3 2 1 AllocEnv.allOk (by decide)).2.2.1,
   (c3_construct_sizes 3 2 1 AllocEnv.allOk (by decide)).2.2.2.1,
   (c3_construct_sizes 3 2 1 AllocEnv.allOk (by decide)).2.2.2.2⟩

/-- C7: every API operation invoked on an invalid (NULL) pool reference
returns its documented zero/false sentinel and performs no side effect:
no thread is started, no join is attempted, no pthread primitive call is
issued, and the free operations perform no release step. -/
theorem c7_null_reference_safe (i c m r : Nat) (createOk : Nat → Bool)
    (joinRes : Nat → Nat) :
    prethd_size none = 0 ∧
    prethd_mutex_size none = 0 ∧
    prethd_cond_size none = 0 ∧
    prethd_all none createOk = (0, none) ∧
    prethd_join none joinRes = false ∧
    joinAttempts none joinRes = [] ∧
    prethd_lock none i r = (false, []) ∧
    prethd_unlock none i r = (false, []) ∧
    prethd_wait none c m r = (false, []) ∧
    prethd_signal none i r = (false, []) ∧
    prethd_broad none i r = (false, []) ∧
    prethd_free_trace none = [] ∧
    prethd_join_free_trace none joinRes = [] := by
  exact ⟨rfl, rfl, rfl, rfl, rfl, rfl, rfl, rfl, rfl, rfl, rfl, rfl, rfl⟩

/-- C4: `prethd_all` on a pool (whose thread array has length `len`, as
every constructed pool does) returns a count that never exceeds `len`;
every index below the returned count had a successful start, and if the
count is below `len` the start at the very next index failed — so starts
were attempted in index order and stopped at the first failure; the
count equals `len` when every start succeeds; and the pool afterwards
has exactly the first `count` slots started, the remaining slots left
untouched. -/
theorem c4_startall_count (pool : Pool) (createOk : Nat → Bool)
    (hw : pool.threads.length = pool.len) :
    (prethd_all (some pool) createOk).1 ≤ pool.len ∧
    (∀ i, i < (prethd_all (some pool) createOk).1 → createOk i = true) ∧
    ((prethd_all (some pool) createOk).1 < pool.len →
      createOk (prethd_all (some pool) createOk).1 = false) ∧
    ((∀ i, i < pool.len → createOk i = true) →
      (prethd_all (some pool) createOk).1 = pool.len) ∧
    (prethd_all (some pool) createOk).2 =
      some { pool with
             threads :=
               List.replicate (prethd_all (some pool) createOk).1
                   ThreadSlot.started
                 ++ pool.threads.drop (prethd_all (some pool) createOk).1 } := by
  simp only [prethd_all]
  refine ⟨hw ▸ startSlots_count_le createOk 0 pool.threads,
    fun i hi => ?_, fun hlt => ?_, fun hall => ?_, ?_⟩
  · simpa using startSlots_ok createOk 0 pool.threads i hi
  · simpa using startSlots_stop createOk 0 pool.threads (hw ▸ hlt)
  · rw [← hw]
    exact startSlots_all createOk 0 pool.threads (by simpa [hw] using hall)
  · simp [startSlots_snd createOk 0 pool.threads]

/-- A pool of three unstarted slots used to witness the StartAll count. -/
def threeSlotPool : Pool :=
  { muts := false, conds := false,
    threads := [ThreadSlot.uninit, ThreadSlot.uninit, ThreadSlot.uninit],
    len := 3, mlen := 0, clen := 0 }

/-- Witness for C4 on a 3-slot pool where only the first two starts
succeed: the returned count is bounded by the pool size. -/
theorem c4_startall_count_witness :
    threeSlotPool.threads.length = threeSlotPool.len ∧
    (prethd_all (some threeSlotPool) (fun i => decide (i < 2))).1 ≤ threeSlotPool.len :=
  ⟨rfl, (c4_startall_count threeSlotPool (fun i => decide (i < 2)) rfl).1⟩

/-- C5: `prethd_join` returns false on a NULL pool reference; on a valid
pool it returns true exactly when every individual `pthread_join` over
the `len` slots returns 0 (a single failure flips the result to false);
and it never short-circuits: it attempts a join on every one of the `len`
slots in index order, whatever the individual join results are. -/
theorem c5_join_all_or_false (pool : Pool) (joinRes : Nat → Nat) :
    prethd_join none joinRes = false ∧
    (prethd_join (some pool) joinRes = true ↔
      ∀ i, i < pool.len → joinRes i = 0) ∧
    joinAttempts (some pool) joinRes = List.range pool.len := by
  refine ⟨rfl, ?_, joinAttempts_range pool joinRes⟩
  simp only [prethd_join, beq_iff_eq]
  rw [joinLoop_snd_eq_zero]
  simp

/-- A two-slot pool used to witness the join contract. -/
def twoSlotPool : Pool :=
  { muts := false, conds := false,
    threads := [ThreadSlot.uninit, ThreadSlot.uninit],
    len := 2, mlen := 0, clen := 0 }

/-- Witness for C5 on a two-slot pool: with every join returning 0 the
overall join succeeds, and both slots are attempted in order. -/
theorem c5_join_all_or_false_witness :
    prethd_join none (fun _ => 0) = false ∧
    prethd_join (some twoSlotPool) (fun _ => 0) = true ∧
    joinAttempts (some twoSlotPool) (fun _ => 0) = [0, 1] := by
  have h := c5_join_all_or_false twoSlotPool (fun _ => 0)
  exact ⟨h.1, h.2.1.mpr (fun i _ => rfl), by rw [h.2.2]; rfl⟩

/-- C6: `prethd_join_free` first runs `prethd_join`; when the join
reports success its teardown trace is exactly the trace of `prethd_free`
(the two paths perform identical release steps), and when the join
reports failure it performs no release step at all. -/
theorem c6_join_free_refines_free (p : Option Pool) (joinRes : Nat → Nat) :
    (prethd_join p joinRes = true →
      prethd_join_free_trace p joinRes = prethd_free_trace p) ∧
    (prethd_join p joinRes = false →
      prethd_join_free_trace p joinRes = []) := by
  constructor
  · intro h
    match p with
    | none => simp [prethd_join] at h
    | some pool => simp [prethd_join_free_trace, prethd_free_trace, h]
  · intro h
    simp [prethd_join_free_trace, h]

/-- A one-slot pool with one mutex used to witness the teardown paths. -/
def oneSlotPool : Pool :=
  { muts := true, conds := false, threads := [ThreadSlot.uninit],
    len := 1, mlen := 1, clen := 0 }

/-- Witness for C6 on a one-slot pool: when its single join succeeds the
join-free trace equals the free trace; when it fails nothing is
released. -/
theorem c6_join_free_refines_free_witness :
    prethd_join_free_trace (some oneSlotPool) (fun _ => 0) =
      prethd_free_trace (some oneSlotPool) ∧
    prethd_join_free_trace (some oneSlotPool) (fun _ => 1) = [] :=
  ⟨(c6_join_free_refines_free (some oneSlotPool) (fun _ => 0)).1 rfl,
   (c6_join_free_refines_free (some oneSlotPool) (fun _ => 1)).2 rfl⟩

/-- The pool produced by `prethd_new 2 0 0` in the all-success
environment: two unstarted slots, no primitives. -/
def twoFreshPool : Pool :=
  { muts := false, conds := false,
    threads := [ThreadSlot.uninit, ThreadSlot.uninit],
    len := 2, mlen := 0, clen := 0 }

/-- `twoFreshPool` after a StartAll in which only slot 0 started. -/
def twoHalfStartedPool : Pool :=
  { muts := false, conds := false,
    threads := [ThreadSlot.started, ThreadSlot.uninit],
    len := 2, mlen := 0, clen := 0 }

/-- C8: refuted on the code. Construct a two-slot pool, run a StartAll
whose second `pthread_create` fails, so only `k = 1` threads started.
The struct stores no record of which slots started, and a subsequent
`prethd_join` attempts joins on both slots `[0, 1]` — not only on the
single started slot `[0]` as the claim states. -/
theorem c8_join_touches_unstarted_slot :
    (prethd_all (prethd_new 2 0 0 AllocEnv.allOk) (fun i => i == 0)).1 = 1 ∧
    joinAttempts (prethd_all (prethd_new 2 0 0 AllocEnv.allOk) (fun i => i == 0)).2
        (fun _ => 0) = [0, 1] ∧
    joinAttempts (prethd_all (prethd_new 2 0 0 AllocEnv.allOk) (fun i => i == 0)).2
        (fun _ => 0) ≠ [0] := by
  refine ⟨rfl, rfl, by decide⟩

/-- C8 amended: the pool does not track which slots were started. After a
StartAll that started only `k < thread_count` threads, a subsequent Join
still attempts a join operation on every one of the `thread_count` slots,
including the slots that were never started. -/
theorem c8_join_attempts_every_slot (th mtx cond k : Nat) (env : AllocEnv)
    (createOk : Nat → Bool) (joinRes : Nat → Nat) (p q : Pool)
    (hnew : prethd_new th mtx cond env = some p)
    (hall : prethd_all (some p) createOk = (k, some q))
    (_hk : k < th) :
    joinAttempts (some q) joinRes = List.range th := by
  have hq : q.len = p.len := by
    simp only [prethd_all] at hall
    have h2 := congrArg Prod.snd hall
    simp only [Option.some.injEq] at h2
    rw [← h2]
  have hp : p.len = th := by
    by_cases h0 : th = 0
    · simp [prethd_new, h0] at hnew
    · rcases env with ⟨po, mo, co, to2⟩
      cases po <;> cases to2 <;> simp [prethd_new, h0] at hnew
      subst hnew
      rfl
  rw [joinAttempts_range, hq, hp]

/-- Witness for the amended C8 on the concrete two-slot run: both slots
are join-attempted even though only slot 0 was started. -/
theorem c8_join_attempts_every_slot_witness :
    joinAttempts (some twoHalfStartedPool) (fun _ => 0) = List.range 2 :=
  c8_join_attempts_every_slot 2 0 0 1 AllocEnv.allOk (fun i => i == 0)
    (fun _ => 0) twoFreshPool twoHalfStartedPool (by decide) (by decide)
    (by decide)

/-- One API operation applied to a pool reference, carrying the outcomes
of the underlying pthread calls it may make. -/
inductive PoolOp where
  | startAll (createOk : Nat → Bool)
  | join (joinRes : Nat → Nat)
  | lock (i r : Nat)
  | unlock (i r : Nat)
  | wait (c m r : Nat)
  | signal (i r : Nat)
  | broadcast (i r : Nat)

/-- The pool after running one operation. `prethd_all` writes the thread
array in place; `prethd_join` and the lock/wait/signal operations only
read the struct — their writes go to the pthread primitives the arrays
point to, never to the struct fields — so the pool is unchanged, exactly
as in the source. -/
def applyOp (p : Option Pool) : PoolOp → Option Pool
  | .startAll createOk => (prethd_all p createOk).2
  | .join _ => p
  | .lock _ _ => p
  | .unlock _ _ => p
  | .wait _ _ _ => p
  | .signal _ _ => p
  | .broadcast _ _ => p

/-- The pool after a sequence of operations. -/
def applySeq (p : Option Pool) (ops : List PoolOp) : Option Pool :=
  ops.foldl applyOp p

/-- A single operation keeps the pool valid and preserves all three
stored counts. -/
theorem applyOp_counts (pool : Pool) (op : PoolOp) :
    ∃ q, applyOp (some pool) op = some q ∧
      q.len = pool.len ∧ q.mlen = pool.mlen ∧ q.clen = pool.clen := by
  cases op <;> exact ⟨_, rfl, rfl, rfl, rfl⟩

/-- A sequence of operations keeps the pool valid and preserves all three
stored counts. -/
theorem applySeq_counts (ops : List PoolOp) (pool : Pool) :
    ∃ q, applySeq (some pool) ops = some q ∧
      q.len = pool.len ∧ q.mlen = pool.mlen ∧ q.clen = pool.clen := by
  induction ops generalizing pool with
  | nil => exact ⟨pool, rfl, rfl, rfl, rfl⟩
  | cons op rest ih =>
    obtain ⟨q, hq, h1, h2, h3⟩ := applyOp_counts pool op
    obtain ⟨q2, hq2, g1, g2, g3⟩ := ih q
    refine ⟨q2, ?_, by omega, by omega, by omega⟩
    simpa [applySeq, hq] using hq2

/-- C9: the three counts of a constructed pool are immutable: after any
sequence of StartAll, Join, Lock, Unlock, Wait, Signal and Broadcast
operations, the three size accessors return exactly what they returned
on the freshly constructed pool. -/
theorem c9_counts_immutable (pool : Pool) (ops : List PoolOp) :
    prethd_size (applySeq (some pool) ops) = prethd_size (some pool) ∧
    prethd_mutex_size (applySeq (some pool) ops) = prethd_mutex_size (some pool) ∧
    prethd_cond_size (applySeq (some pool) ops) = prethd_cond_size (some pool) := by
  obtain ⟨q, hq, h1, h2, h3⟩ := applySeq_counts ops pool
  rw [hq]
  exact ⟨h1, h2, h3⟩

/-- C10: for every pool constructed with all allocations succeeding, a
zero mutex (resp. condvar) count means the corresponding array pointer is
NULL, the destroy helper detects the absent array and performs no destroy
or free step on it, and `prethd_free` still frees the thread array and
the pool struct. -/
theorem c10_free_with_zero_counts (th mtx cond : Nat) (pool : Pool)
    (h : prethd_new th mtx cond AllocEnv.allOk = some pool) :
    (mtx = 0 → pool.muts = false ∧ des_muts_trace pool.muts pool.mlen = []) ∧
    (cond = 0 → pool.conds = false ∧ des_conds_trace pool.conds pool.clen = []) ∧
    FreeAction.freeThreads ∈ prethd_free_trace (some pool) ∧
    FreeAction.freePool ∈ prethd_free_trace (some pool) := by
  by_cases h0 : th = 0
  · simp [prethd_new, h0] at h
  · simp only [prethd_new, h0, AllocEnv.allOk, if_false, if_true,
      Option.some.injEq, ite_false] at h
    subst h
    refine ⟨fun hm => ?_, fun hc => ?_, ?_, ?_⟩
    · subst hm; exact ⟨rfl, rfl⟩
    · subst hc; exact ⟨rfl, rfl⟩
    · simp [prethd_free_trace]
    · simp [prethd_free_trace]

/-- The pool produced by `prethd_new 1 0 0` in the all-success
environment: both primitive arrays are absent. -/
def bareOnePool : Pool :=
  { muts := false, conds := false, threads := [ThreadSlot.uninit],
    len := 1, mlen := 0, clen := 0 }

/-- Witness for C10 at `th = 1, mtx = 0, cond = 0`: the mutex array is
NULL, its destroy helper does nothing, and the free trace still frees
the thread array. -/
theorem c10_free_with_zero_counts_witness :
    (bareOnePool.muts = false ∧
      des_muts_trace bareOnePool.muts bareOnePool.mlen = []) ∧
    FreeAction.freeThreads ∈ prethd_free_trace (some bareOnePool) :=
  ⟨(c10_free_with_zero_counts 1 0 0 bareOnePool (by decide)).1 rfl,
   (c10_free_with_zero_counts 1 0 0 bareOnePool (by decide)).2.2.1⟩

end Prethread
